import Mathlib

/-!
Verification of the FlashTalk realtime voice-session engine, the
`useLiveGemini` hook of `src/App.tsx` (hook source lines 309-674).

The hook's React state and refs are embedded as a `SessionState` record;
the transport callback `onmessage`, the teardown routine `cleanup`, and the
`connect` / `disconnect` lifecycle functions are embedded as pure state
transformers.  Boolean fields model whether the corresponding mutable ref
currently holds a live resource; audio clock values and buffer durations
are rationals; a decoded audio buffer is represented by its duration,
which is all the playback scheduler reads from it.
-/

/-- Connection lifecycle states, from the `ConnectionState` enum of
`src/types.ts`. -/
inductive ConnectionState
  | DISCONNECTED
  | CONNECTING
  | CONNECTED
  | ERROR
deriving DecidableEq

/-- Speaker role of a transcript entry (`'user' | 'assistant'` in
`src/types.ts`). -/
inductive Role
  | user
  | assistant
deriving DecidableEq

/-- A transcript log entry, from `TranscriptMessage` of `src/types.ts`.
The field `isDraft` embeds the source field `isPartial` (true while the
entry is still being streamed, false once finalized); it is renamed here
only because of a naming restriction of this development. -/
structure TranscriptMessage where
  id : String
  role : Role
  text : String
  isDraft : Bool
  timestamp : Nat
deriving DecidableEq

/-- The mutable state of the `useLiveGemini` hook: the four React state
cells (`connectionState`, `volume`, `error`, `transcript`) and the refs
that the claims are about.  A boolean ref field is `true` exactly when the
corresponding `useRef` cell holds a resource (non-null).  `activeSources`
embeds `activeSourcesRef` (the in-flight playback units) as a list of
source ids; `sourceCounter` supplies fresh ids for newly created buffer
sources. -/
structure SessionState where
  connectionState : ConnectionState
  volume : Nat
  error : Option String
  transcript : List TranscriptMessage
  inputCtx : Bool
  outputCtx : Bool
  outputNode : Bool
  stream : Bool
  sessionRef : Bool
  currentInputTrans : String
  currentOutputTrans : String
  nextStartTime : ℚ
  activeSources : List Nat
  sourceCounter : Nat
deriving DecidableEq

/-- The hook's initial state: everything disconnected, empty and zero. -/
def initState : SessionState :=
  { connectionState := ConnectionState.DISCONNECTED
    volume := 0
    error := none
    transcript := []
    inputCtx := false
    outputCtx := false
    outputNode := false
    stream := false
    sessionRef := false
    currentInputTrans := ""
    currentOutputTrans := ""
    nextStartTime := 0
    activeSources := []
    sourceCounter := 0 }

/-- Teardown `cleanup` (App.tsx lines 346-376): stop and clear all in-flight
sources, stop the microphone tracks and clear `streamRef`, close and clear
both audio contexts, set state `DISCONNECTED`, volume `0`, clear
`sessionRef`, both transcription accumulators and `nextStartTime`.
The transcript log and `outputNodeRef` are not touched by the source. -/
def cleanup (s : SessionState) : SessionState :=
  { s with
      activeSources := []
      stream := false
      inputCtx := false
      outputCtx := false
      connectionState := ConnectionState.DISCONNECTED
      volume := 0
      sessionRef := false
      currentInputTrans := ""
      currentOutputTrans := ""
      nextStartTime := 0 }

/-- Lifecycle `disconnect` (App.tsx lines 632-645): best-effort close of the
transport session (no observable state effect) followed unconditionally by
`cleanup`; when no session exists, `cleanup` directly. -/
def disconnect (s : SessionState) : SessionState :=
  cleanup s

/-- The `onclose` transport callback (App.tsx lines 606-609): runs
`cleanup`. -/
def onclose (s : SessionState) : SessionState :=
  cleanup s

/-- The start-time computation of the playback scheduler (App.tsx lines
533-537): `if (nextStartTime < currentTime) nextStartTime = currentTime`,
then the buffer is started at that value. -/
def scheduleStart (nextStartTime currentTime : ℚ) : ℚ :=
  if nextStartTime < currentTime then currentTime else nextStartTime

/-- An inbound transport message, the subset of `LiveServerMessage`
consumed by the handler: `serverContent.interrupted`,
`serverContent.modelTurn.parts[0].inlineData.data` (represented by the
duration `audioDur` of the decoded buffer), `inputTranscription`,
`outputTranscription` (each carrying its effective text, with a missing
`text` field collapsed to `""` as by `|| ""` in the source), and
`turnComplete`. -/
structure ServerMessage where
  interrupted : Bool
  audioDur : Option ℚ
  inputTranscription : Option String
  outputTranscription : Option String
  turnComplete : Bool
deriving DecidableEq

/-- A message carrying only an input-transcription delta. -/
def inMsg (t : String) : ServerMessage :=
  ⟨false, none, some t, none, false⟩

/-- A message carrying only an output-transcription delta. -/
def outMsg (t : String) : ServerMessage :=
  ⟨false, none, none, some t, false⟩

/-- A message carrying only an audio payload whose decoded buffer has the
given duration. -/
def audioMsg (dur : ℚ) : ServerMessage :=
  ⟨false, some dur, none, none, false⟩

/-- A message carrying only the turn-complete flag. -/
def tcMsg : ServerMessage :=
  ⟨false, none, none, none, true⟩

/-- A message carrying only the interrupted flag. -/
def interruptedMsg : ServerMessage :=
  ⟨true, none, none, none, false⟩

/-- Model of the JavaScript `String.prototype.trim` used by the handler:
strip leading and trailing whitespace.  Defined structurally over the
character list so that it evaluates by kernel reduction. -/
def jsTrim (s : String) : String :=
  ⟨((s.data.dropWhile Char.isWhitespace).reverse.dropWhile Char.isWhitespace).reverse⟩

/-- The user-flush block (App.tsx lines 558-565, repeated verbatim at
586-593): if the pending input accumulator has non-whitespace content,
append it to the log as a finalized user message and clear it. -/
def flushUser (now : Nat) (s : SessionState) : SessionState :=
  if jsTrim s.currentInputTrans ≠ "" then
    { s with
        transcript := s.transcript ++
          [⟨toString now, Role.user, s.currentInputTrans, false, now⟩]
        currentInputTrans := "" }
  else s

/-- The audio branch of `onmessage` (App.tsx lines 521-546): when an audio
payload is present and both the output context and the output gain node
exist, schedule the decoded buffer at `scheduleStart`, advance
`nextStartTime` by its duration and add the new source to the in-flight
set. -/
def handleAudio (ct : ℚ) (msg : ServerMessage) (s : SessionState) : SessionState :=
  match msg.audioDur with
  | some dur =>
      if s.outputCtx && s.outputNode then
        { s with
            nextStartTime := scheduleStart s.nextStartTime ct + dur
            activeSources := s.activeSources ++ [s.sourceCounter]
            sourceCounter := s.sourceCounter + 1 }
      else s
  | none => s

/-- The `onended` callback of a scheduled source (App.tsx lines 543-545):
the finished unit is removed from the in-flight set. -/
def sourceEnded (srcId : Nat) (s : SessionState) : SessionState :=
  { s with activeSources := s.activeSources.erase srcId }

/-- The input-transcription branch of `onmessage` (App.tsx lines
549-552): append the delta to the pending user accumulator. -/
def handleInputTrans (msg : ServerMessage) (s : SessionState) : SessionState :=
  match msg.inputTranscription with
  | some t => { s with currentInputTrans := s.currentInputTrans ++ t }
  | none => s

/-- The upsert of the assistant partial into the log (App.tsx lines
568-581): if the last entry is an assistant draft, replace its text,
otherwise append a fresh assistant draft entry. -/
def upsertAssistant (now : Nat) (text : String) (l : List TranscriptMessage) :
    List TranscriptMessage :=
  match l.getLast? with
  | some last =>
      if last.role = Role.assistant ∧ last.isDraft then
        l.dropLast ++ [{ last with text := text }]
      else
        l ++ [⟨toString now, Role.assistant, text, true, now⟩]
  | none => l ++ [⟨toString now, Role.assistant, text, true, now⟩]

/-- The output-transcription branch of `onmessage` (App.tsx lines
554-582): first flush a non-empty pending user accumulator, then append
the delta to the assistant accumulator and upsert it into the log. -/
def handleOutputTrans (now : Nat) (msg : ServerMessage) (s : SessionState) :
    SessionState :=
  match msg.outputTranscription with
  | some t =>
      let sa := flushUser now s
      let sb := { sa with currentOutputTrans := sa.currentOutputTrans ++ t }
      { sb with transcript := upsertAssistant now sb.currentOutputTrans sb.transcript }
  | none => s

/-- Finalization of the trailing assistant message (App.tsx lines
595-601): if the last entry exists and has the assistant role, clear its
draft flag; otherwise leave the log unchanged. -/
def finalizeAssistantLast (l : List TranscriptMessage) : List TranscriptMessage :=
  match l.getLast? with
  | some last =>
      if last.role = Role.assistant then
        l.dropLast ++ [{ last with isDraft := false }]
      else l
  | none => l

/-- The turn-complete branch of `onmessage` (App.tsx lines 584-604):
flush a non-empty pending user accumulator; then, if the assistant
accumulator is non-empty, finalize the trailing assistant entry and clear
the accumulator. -/
def handleTurnComplete (now : Nat) (msg : ServerMessage) (s : SessionState) :
    SessionState :=
  if msg.turnComplete then
    let s4 := flushUser now s
    if s4.currentOutputTrans ≠ "" then
      { s4 with
          transcript := finalizeAssistantLast s4.transcript
          currentOutputTrans := "" }
    else s4
  else s

/-- The `onmessage` transport callback (App.tsx lines 510-605).  An
`interrupted` flag short-circuits the whole handler: stop and clear all
in-flight sources, reset `nextStartTime` to `0`, discard the pending
assistant accumulator, and return.  Otherwise the audio payload, the
input-transcription delta, the output-transcription delta and the
turn-complete flag are processed in that order.  `now` is the value of
`Date.now()` during the call (used for entry ids and timestamps), `ct`
the output clock `ctx.currentTime`. -/
def onmessage (now : Nat) (ct : ℚ) (msg : ServerMessage) (s : SessionState) :
    SessionState :=
  if msg.interrupted then
    { s with
        activeSources := []
        nextStartTime := 0
        currentOutputTrans := "" }
  else
    handleTurnComplete now msg
      (handleOutputTrans now msg (handleInputTrans msg (handleAudio ct msg s)))

/-- Sequential processing of a list of transport messages, in arrival
order (the transport delivers callbacks one at a time). -/
def processMessages (now : Nat) (ct : ℚ) (msgs : List ServerMessage)
    (s : SessionState) : SessionState :=
  msgs.foldl (fun st m => onmessage now ct m st) s

/-- Iterated playback scheduling: given the current `nextStartTime` and a
list of (arrival clock time, buffer duration) pairs, return the list of
start times the scheduler assigns, each buffer advancing `nextStartTime`
by its duration as in `handleAudio`. -/
def scheduleBuffers (nst : ℚ) : List (ℚ × ℚ) → List ℚ
  | [] => []
  | (now, dur) :: rest =>
      scheduleStart nst now :: scheduleBuffers (scheduleStart nst now + dur) rest

/-- Specification-side definition: the exactly-back-to-back start times
beginning at `nst` for the given durations (each buffer starts where the
previous one ends). -/
def backToBackStarts (nst : ℚ) : List ℚ → List ℚ
  | [] => []
  | d :: rest => nst :: backToBackStarts (nst + d) rest

/-- Specification-side predicate: every buffer arrives no later than the
scheduler's running `nextStartTime` cursor, i.e. the producer keeps pace
with playback. -/
def arrivesInTime : ℚ → List (ℚ × ℚ) → Prop
  | _, [] => True
  | nst, (now, dur) :: rest => now ≤ nst ∧ arrivesInTime (nst + dur) rest

/-- Concatenation of a list of transcription deltas. -/
def concatAll : List String → String
  | [] => ""
  | d :: ds => d ++ concatAll ds

/-- Whether the last log entry is an assistant draft, the condition the
upsert of App.tsx lines 569-570 tests. -/
def lastAssistantDraft (l : List TranscriptMessage) : Bool :=
  match l.getLast? with
  | some m => decide (m.role = Role.assistant) && m.isDraft
  | none => false

/-- Failure modes of `getUserMedia` distinguished by App.tsx lines
451-458. -/
inductive MicError
  | notAllowed
  | notFound
  | other (msg : String)
deriving DecidableEq

/-- The user-facing message thrown for each microphone failure (App.tsx
lines 452-458). -/
def micErrorMessage : MicError → String
  | MicError.notAllowed =>
      "Microphone access denied. Please allow permissions in your browser settings."
  | MicError.notFound => "No microphone found. Please check your input devices."
  | MicError.other m => "Could not access microphone: " ++ m

/-- The message surfaced by the catch block of `connect` (App.tsx line
625): the thrown message, or the generic fallback when it is empty. -/
def connectErrMsg (thrown : String) : String :=
  if thrown = "" then "Failed to initialize audio or connection." else thrown

/-- Outcomes of the external steps `connect` performs, which determine its
control flow: whether a credential is configured, whether the
`AudioContext` constructor succeeds, whether `getUserMedia` succeeds (and
with which error otherwise), and whether the transport session opens (or
the message of the error it throws otherwise). -/
structure ConnectEnv where
  apiKey : Option String
  audioCtxOk : Bool
  micResult : Option MicError
  transportErr : Option String
deriving DecidableEq

/-- Observable effects of a `connect` call, in program order: each
`setConnectionState` assignment and each attempted external acquisition. -/
inductive ConnectEvent
  | setState (st : ConnectionState)
  | newAudioContexts
  | getUserMedia
  | liveConnect
deriving DecidableEq

/-- The catch block of `connect` (App.tsx lines 623-629): surface the
error message, set state `ERROR`, then run `cleanup` (whose own
`setConnectionState` leaves the final state `DISCONNECTED`). -/
def connectCatch (msg : String) (s : SessionState) (evs : List ConnectEvent) :
    SessionState × List ConnectEvent :=
  (cleanup
      { s with
          error := some msg
          connectionState := ConnectionState.ERROR },
    evs ++ [ConnectEvent.setState ConnectionState.ERROR,
            ConnectEvent.setState ConnectionState.DISCONNECTED])

/-- Lifecycle `connect` (App.tsx lines 378-630).  A missing credential aborts before
any other effect.  Otherwise: state `CONNECTING` and error cleared; the
audio contexts and the output graph (gain node etc.) are built; the
microphone is acquired; the transport session is opened, on whose `onopen`
the state becomes `CONNECTED`.  A failure at any of the three steps throws
into the shared catch block. -/
def connect (env : ConnectEnv) (s : SessionState) :
    SessionState × List ConnectEvent :=
  match env.apiKey with
  | none =>
      ({ s with
          error := some "API Key is missing. Please check your environment configuration." },
        [])
  | some _ =>
      let s1 := { s with
            connectionState := ConnectionState.CONNECTING
            error := none }
      if env.audioCtxOk then
        let s2 := { s1 with inputCtx := true, outputCtx := true, outputNode := true }
        match env.micResult with
        | some e =>
            connectCatch (connectErrMsg (micErrorMessage e)) s2
              [ConnectEvent.setState ConnectionState.CONNECTING,
               ConnectEvent.newAudioContexts, ConnectEvent.getUserMedia]
        | none =>
            let s3 := { s2 with stream := true }
            match env.transportErr with
            | some m =>
                connectCatch (connectErrMsg m) s3
                  [ConnectEvent.setState ConnectionState.CONNECTING,
                   ConnectEvent.newAudioContexts, ConnectEvent.getUserMedia,
                   ConnectEvent.liveConnect]
            | none =>
                ({ s3 with
                      sessionRef := true
                      connectionState := ConnectionState.CONNECTED },
                  [ConnectEvent.setState ConnectionState.CONNECTING,
                   ConnectEvent.newAudioContexts, ConnectEvent.getUserMedia,
                   ConnectEvent.liveConnect,
                   ConnectEvent.setState ConnectionState.CONNECTED])
      else
        connectCatch
          (connectErrMsg "Could not initialize AudioContext. Your browser may not support it.")
          s1
          [ConnectEvent.setState ConnectionState.CONNECTING,
           ConnectEvent.newAudioContexts]

/-! ## Helper lemmas -/

/-- The scheduler's start-time computation is exactly the maximum of the
cursor and the clock. -/
lemma scheduleStart_eq_max (a b : ℚ) : scheduleStart a b = max a b := by
  unfold scheduleStart
  rcases le_or_lt b a with h | h
  · rw [if_neg (not_lt.mpr h), max_eq_left h]
  · rw [if_pos h, max_eq_right h.le]

/-- The cursor never moves backwards at a scheduling step. -/
lemma le_scheduleStart_left (a b : ℚ) : a ≤ scheduleStart a b := by
  unfold scheduleStart
  split
  · exact le_of_lt (by assumption)
  · exact le_refl a

/-- A chain of `≤` survives lowering its head. -/
lemma chain'_le_of_le {a b : ℚ} {l : List ℚ} (hab : b ≤ a)
    (h : List.Chain' (· ≤ ·) (a :: l)) : List.Chain' (· ≤ ·) (b :: l) := by
  rw [List.chain'_cons'] at h ⊢
  exact ⟨fun y hy => le_trans hab (h.1 y hy), h.2⟩

/-- With nonnegative durations, the start times produced by the scheduler
never drop below the initial cursor, chain-wise. -/
lemma chain_le_scheduleBuffers (l : List (ℚ × ℚ)) :
    ∀ nst : ℚ, (∀ p ∈ l, 0 ≤ p.2) →
      List.Chain' (· ≤ ·) (nst :: scheduleBuffers nst l) := by
  induction l with
  | nil => intro nst _; simp [scheduleBuffers]
  | cons p rest ih =>
      intro nst h
      obtain ⟨now, dur⟩ := p
      have hdur : (0 : ℚ) ≤ dur := h (now, dur) (List.mem_cons_self _ _)
      have hrest : ∀ q ∈ rest, (0 : ℚ) ≤ q.2 :=
        fun q hq => h q (List.mem_cons_of_mem _ hq)
      simp only [scheduleBuffers]
      rw [List.chain'_cons']
      refine ⟨?_, ?_⟩
      · intro y hy
        simp only [List.head?_cons, Option.mem_def, Option.some.injEq] at hy
        rw [← hy]
        exact le_scheduleStart_left nst now
      · exact chain'_le_of_le (by linarith [le_scheduleStart_left nst now] : scheduleStart nst now ≤ scheduleStart nst now + dur)
          (ih (scheduleStart nst now + dur) hrest)

/-- When every buffer arrives while the cursor is still ahead of the
clock, the schedule is exactly back-to-back. -/
lemma scheduleBuffers_paced (l : List (ℚ × ℚ)) :
    ∀ nst : ℚ, arrivesInTime nst l →
      scheduleBuffers nst l = backToBackStarts nst (l.map Prod.snd) := by
  induction l with
  | nil => intro nst _; simp [scheduleBuffers, backToBackStarts]
  | cons p rest ih =>
      intro nst h
      obtain ⟨now, dur⟩ := p
      obtain ⟨hnow, hrest⟩ := h
      have hs : scheduleStart nst now = nst := by
        unfold scheduleStart
        rw [if_neg (not_lt.mpr hnow)]
      simp only [scheduleBuffers, backToBackStarts, List.map_cons, hs]
      exact congrArg (nst :: ·) (ih (nst + dur) hrest)

/-! ## Claim theorems -/

/-- C5: `cleanup` is idempotent and partial-init safe: a second invocation
changes nothing; from any state (including the fresh `initState`, where no
resource was ever acquired) it is a total function leaving the connection
state `DISCONNECTED`, the volume `0`, both transcription accumulators
empty, `nextStartTime` `0`, the in-flight set empty, and the microphone
stream, both audio contexts and the transport session reference all
cleared. -/
theorem c5_cleanup_idempotent (s : SessionState) :
    cleanup (cleanup s) = cleanup s ∧
    (cleanup s).connectionState = ConnectionState.DISCONNECTED ∧
    (cleanup s).volume = 0 ∧
    (cleanup s).currentInputTrans = "" ∧
    (cleanup s).currentOutputTrans = "" ∧
    (cleanup s).nextStartTime = 0 ∧
    (cleanup s).activeSources = [] ∧
    (cleanup s).stream = false ∧
    (cleanup s).inputCtx = false ∧
    (cleanup s).outputCtx = false ∧
    (cleanup s).sessionRef = false ∧
    cleanup initState = initState :=
  ⟨rfl, rfl, rfl, rfl, rfl, rfl, rfl, rfl, rfl, rfl, rfl, rfl⟩

/-- C10: neither `cleanup` nor `disconnect` nor the transport-close
handler removes or modifies any transcript entry: the log is identical
before and after teardown. -/
theorem c10_cleanup_preserves_transcript (s : SessionState) :
    (cleanup s).transcript = s.transcript ∧
    (disconnect s).transcript = s.transcript ∧
    (onclose s).transcript = s.transcript :=
  ⟨rfl, rfl, rfl⟩

/-- C9: a message with the interrupted flag set is processed only as an
interruption: whatever audio payload, transcription deltas or
turn-complete flag it carries, the handler clears the in-flight set,
resets `nextStartTime` and discards the assistant accumulator, and changes
nothing else — in particular the transcript log and the pending user
accumulator are untouched and no playback unit is scheduled. -/
theorem c9_interrupted_ignores_payload (now : Nat) (ct : ℚ)
    (msg : ServerMessage) (s : SessionState) (h : msg.interrupted = true) :
    onmessage now ct msg s =
      { s with
          activeSources := []
          nextStartTime := 0
          currentOutputTrans := "" } := by
  simp [onmessage, h]

/-- Witness for C9 at a message that carries an audio payload, both
transcription deltas and the turn-complete flag together with the
interrupted flag: none of them has any effect. -/
theorem c9_witness :
    onmessage 3 2 ⟨true, some 1, some "a", some "b", true⟩ initState =
      { initState with
          activeSources := []
          nextStartTime := 0
          currentOutputTrans := "" } :=
  c9_interrupted_ignores_payload 3 2 ⟨true, some 1, some "a", some "b", true⟩ initState rfl

/-- C3: processing a message with the interrupted flag leaves the
in-flight set empty, resets `nextStartTime` to zero and discards the
pending assistant accumulator; the next unit scheduled afterwards starts
exactly at the current output-clock time (hence at or after it), not after
the previously queued audio. -/
theorem c3_interrupted_resets (now : Nat) (ct : ℚ) (msg : ServerMessage)
    (s : SessionState) (h : msg.interrupted = true) :
    (onmessage now ct msg s).activeSources = [] ∧
    (onmessage now ct msg s).nextStartTime = 0 ∧
    (onmessage now ct msg s).currentOutputTrans = "" ∧
    ∀ t : ℚ, 0 ≤ t →
      scheduleStart (onmessage now ct msg s).nextStartTime t = t := by
  have e : onmessage now ct msg s =
      { s with
          activeSources := []
          nextStartTime := 0
          currentOutputTrans := "" } := by
    simp [onmessage, h]
  rw [e]
  refine ⟨rfl, rfl, rfl, ?_⟩
  intro t ht
  simp only [scheduleStart]
  split
  · rfl
  · linarith [not_lt.mp (by assumption : ¬ (0 : ℚ) < t)]

/-- Witness for C3: an interruption arriving while two units are queued
and the cursor is far ahead clears everything, and a unit arriving at
clock time `5` is then scheduled at `5`. -/
theorem c3_witness :
    (onmessage 0 0 interruptedMsg
        { initState with nextStartTime := 9, activeSources := [0, 1] }).activeSources = [] ∧
    scheduleStart
      (onmessage 0 0 interruptedMsg
        { initState with nextStartTime := 9, activeSources := [0, 1] }).nextStartTime 5 = 5 := by
  have h := c3_interrupted_resets 0 0 interruptedMsg
    { initState with nextStartTime := 9, activeSources := [0, 1] } rfl
  exact ⟨h.1, h.2.2.2 5 (by norm_num)⟩

/-- C2: each decoded buffer is scheduled by the handler to start at
`max(nextStartTime, currentClockTime)` and the cursor then advances by the
buffer's duration; for any sequence of buffers delivered at arbitrary
clock times with nonnegative durations the resulting start times are
non-decreasing, and whenever each buffer arrives while the cursor is still
at or ahead of the clock the starts are exactly back-to-back (no gaps, no
overlap). -/
theorem c2_scheduling_monotone_gapless (nst : ℚ) (arr : List (ℚ × ℚ))
    (hdur : ∀ p ∈ arr, (0 : ℚ) ≤ p.2) :
    (∀ (s : SessionState) (now : Nat) (ct dur : ℚ),
        s.outputCtx = true → s.outputNode = true →
        onmessage now ct (audioMsg dur) s =
          { s with
              nextStartTime := max s.nextStartTime ct + dur
              activeSources := s.activeSources ++ [s.sourceCounter]
              sourceCounter := s.sourceCounter + 1 }) ∧
    (∀ now dur rest, scheduleBuffers nst ((now, dur) :: rest) =
        max nst now :: scheduleBuffers (max nst now + dur) rest) ∧
    List.Chain' (· ≤ ·) (scheduleBuffers nst arr) ∧
    (arrivesInTime nst arr →
      scheduleBuffers nst arr = backToBackStarts nst (arr.map Prod.snd)) := by
  refine ⟨?_, ?_, ?_, ?_⟩
  · intro s now ct dur hc hn
    simp [onmessage, audioMsg, handleAudio, handleInputTrans, handleOutputTrans,
      handleTurnComplete, hc, hn, scheduleStart_eq_max]
  · intro now dur rest
    simp [scheduleBuffers, scheduleStart_eq_max]
  · exact (chain_le_scheduleBuffers arr nst hdur).tail
  · exact scheduleBuffers_paced arr nst

/-- Witness for C2: two buffers of durations `1` and `2`, the second
arriving at clock time `1` (while the cursor already stands at `1`), are
scheduled back-to-back at `0` and `1`, forming a non-decreasing gapless
schedule. -/
theorem c2_witness :
    List.Chain' (· ≤ ·) (scheduleBuffers 0 [(0, 1), (1, 2)]) ∧
    scheduleBuffers 0 [(0, 1), (1, 2)] = backToBackStarts 0 [1, 2] := by
  have h := c2_scheduling_monotone_gapless 0 [(0, 1), (1, 2)]
    (by
      intro p hp
      simp only [List.mem_cons, List.not_mem_nil, or_false] at hp
      rcases hp with h | h <;> rw [h] <;> norm_num)
  exact ⟨h.2.2.1, h.2.2.2 (by norm_num [arrivesInTime])⟩

/-- Every run of the shared catch block of `connect` ends with an error
message surfaced, the trace closing with the `ERROR` and `DISCONNECTED`
assignments, and the cleaned-up terminal state. -/
lemma connectCatch_props (msg : String) (t : SessionState) (evs : List ConnectEvent) :
    (∃ m, (connectCatch msg t evs).1.error = some m) ∧
    (∃ pre, (connectCatch msg t evs).2 =
        pre ++ [ConnectEvent.setState ConnectionState.ERROR,
                ConnectEvent.setState ConnectionState.DISCONNECTED]) ∧
    (∃ u, (connectCatch msg t evs).1 = cleanup u) ∧
    (connectCatch msg t evs).1.connectionState = ConnectionState.DISCONNECTED ∧
    (connectCatch msg t evs).1.volume = 0 ∧
    (connectCatch msg t evs).1.stream = false ∧
    (connectCatch msg t evs).1.inputCtx = false ∧
    (connectCatch msg t evs).1.outputCtx = false ∧
    (connectCatch msg t evs).1.sessionRef = false ∧
    (connectCatch msg t evs).1.activeSources = [] :=
  ⟨⟨msg, rfl⟩, ⟨evs, rfl⟩, ⟨_, rfl⟩, rfl, rfl, rfl, rfl, rfl, rfl, rfl⟩

/-- C4: whenever `connect` is past the credential check and any of the
audio-context construction, the microphone acquisition or the transport
open fails, the run sets state `ERROR`, surfaces an error message, and
ends in the `cleanup` of the intermediate state: the observable final
state is fully torn down (state `DISCONNECTED`, volume `0`, empty
in-flight set, microphone, audio contexts and session reference all
released), never a partially-torn-down one. -/
theorem c4_connect_failure_cleans_up (env : ConnectEnv) (s : SessionState)
    (hk : env.apiKey.isSome)
    (hfail : env.audioCtxOk = false ∨ env.micResult.isSome ∨ env.transportErr.isSome) :
    (∃ m, ((connect env s).1).error = some m) ∧
    (∃ pre, (connect env s).2 =
        pre ++ [ConnectEvent.setState ConnectionState.ERROR,
                ConnectEvent.setState ConnectionState.DISCONNECTED]) ∧
    (∃ t, (connect env s).1 = cleanup t) ∧
    ((connect env s).1).connectionState = ConnectionState.DISCONNECTED ∧
    ((connect env s).1).volume = 0 ∧
    ((connect env s).1).stream = false ∧
    ((connect env s).1).inputCtx = false ∧
    ((connect env s).1).outputCtx = false ∧
    ((connect env s).1).sessionRef = false ∧
    ((connect env s).1).activeSources = [] := by
  obtain ⟨key, actx, mic, terr⟩ := env
  obtain ⟨k, hkk⟩ := Option.isSome_iff_exists.mp hk
  subst hkk
  cases actx with
  | false => exact connectCatch_props _ _ _
  | true =>
      cases mic with
      | some e => exact connectCatch_props _ _ _
      | none =>
          cases terr with
          | some m => exact connectCatch_props _ _ _
          | none => simp at hfail

/-- Witness for C4: a denied microphone permission after a configured key
ends with the permission message surfaced and a fully cleaned-up,
disconnected state. -/
theorem c4_witness :
    ((connect ⟨some "k", true, some MicError.notAllowed, none⟩ initState).1).connectionState =
        ConnectionState.DISCONNECTED ∧
    (∃ m, ((connect ⟨some "k", true, some MicError.notAllowed, none⟩ initState).1).error = some m) ∧
    ((connect ⟨some "k", true, some MicError.notAllowed, none⟩ initState).1).stream = false := by
  have h := c4_connect_failure_cleans_up ⟨some "k", true, some MicError.notAllowed, none⟩
    initState rfl (Or.inr (Or.inl rfl))
  exact ⟨h.2.2.2.1, h.1, h.2.2.2.2.2.1⟩

/-- C8: `connect` with no configured credential aborts before any effect:
the error field becomes the missing-key message, nothing else of the state
changes (so a `DISCONNECTED` state stays `DISCONNECTED` and no audio
context, microphone stream or transport session is created), the state
never becomes `CONNECTING`, and no microphone request is issued. -/
theorem c8_connect_missing_key (env : ConnectEnv) (s : SessionState)
    (hk : env.apiKey = none)
    (hd : s.connectionState = ConnectionState.DISCONNECTED) :
    connect env s =
      ({ s with
          error := some "API Key is missing. Please check your environment configuration." },
        []) ∧
    ((connect env s).1).connectionState = ConnectionState.DISCONNECTED ∧
    ((connect env s).1).stream = s.stream ∧
    ((connect env s).1).inputCtx = s.inputCtx ∧
    ((connect env s).1).outputCtx = s.outputCtx ∧
    ((connect env s).1).sessionRef = s.sessionRef ∧
    ConnectEvent.getUserMedia ∉ (connect env s).2 ∧
    ConnectEvent.setState ConnectionState.CONNECTING ∉ (connect env s).2 := by
  obtain ⟨key, actx, mic, terr⟩ := env
  simp only at hk
  subst hk
  refine ⟨rfl, ?_, rfl, rfl, rfl, rfl, ?_, ?_⟩
  · exact hd
  · simp [connect]
  · simp [connect]

/-- Witness for C8: calling `connect` on the fresh state with no key set
surfaces the missing-key message and leaves the state disconnected with no
events. -/
theorem c8_witness :
    connect ⟨none, true, none, none⟩ initState =
      ({ initState with
          error := some "API Key is missing. Please check your environment configuration." },
        []) ∧
    ((connect ⟨none, true, none, none⟩ initState).1).connectionState =
      ConnectionState.DISCONNECTED :=
  ⟨(c8_connect_missing_key ⟨none, true, none, none⟩ initState rfl rfl).1,
   (c8_connect_missing_key ⟨none, true, none, none⟩ initState rfl rfl).2.1⟩

/-! ## Transcript-handling helper lemmas -/

lemma processMessages_nil (now : Nat) (ct : ℚ) (s : SessionState) :
    processMessages now ct [] s = s := rfl

lemma processMessages_cons (now : Nat) (ct : ℚ) (m : ServerMessage)
    (msgs : List ServerMessage) (s : SessionState) :
    processMessages now ct (m :: msgs) s =
      processMessages now ct msgs (onmessage now ct m s) := rfl

lemma processMessages_append (now : Nat) (ct : ℚ) (A B : List ServerMessage)
    (s : SessionState) :
    processMessages now ct (A ++ B) s =
      processMessages now ct B (processMessages now ct A s) := by
  simp [processMessages, List.foldl_append]

/-- An input-transcription delta only appends to the pending user
accumulator. -/
lemma onmessage_inMsg (now : Nat) (ct : ℚ) (t : String) (s : SessionState) :
    onmessage now ct (inMsg t) s =
      { s with currentInputTrans := s.currentInputTrans ++ t } := by
  simp [onmessage, inMsg, handleAudio, handleInputTrans, handleOutputTrans,
    handleTurnComplete]

/-- An output-transcription delta with a whitespace-only pending user
accumulator: no flush, just the accumulator append and the upsert. -/
lemma onmessage_outMsg (now : Nat) (ct : ℚ) (d : String) (s : SessionState)
    (h : jsTrim s.currentInputTrans = "") :
    onmessage now ct (outMsg d) s =
      { s with
          currentOutputTrans := s.currentOutputTrans ++ d
          transcript := upsertAssistant now (s.currentOutputTrans ++ d) s.transcript } := by
  simp [onmessage, outMsg, handleAudio, handleInputTrans, handleOutputTrans,
    handleTurnComplete, flushUser, h]

/-- An output-transcription delta with non-whitespace pending user text:
the user message is flushed as finalized first, then the assistant upsert
happens on the extended log. -/
lemma onmessage_outMsg_flush (now : Nat) (ct : ℚ) (d : String) (s : SessionState)
    (h : jsTrim s.currentInputTrans ≠ "") :
    onmessage now ct (outMsg d) s =
      { s with
          transcript := upsertAssistant now (s.currentOutputTrans ++ d)
            (s.transcript ++ [⟨toString now, Role.user, s.currentInputTrans, false, now⟩])
          currentInputTrans := ""
          currentOutputTrans := s.currentOutputTrans ++ d } := by
  simp [onmessage, outMsg, handleAudio, handleInputTrans, handleOutputTrans,
    handleTurnComplete, flushUser, h]

/-- Upsert against a log ending in an assistant draft merges into that
entry, keeping its id and timestamp. -/
lemma upsertAssistant_last_draft (now : Nat) (text : String)
    (L : List TranscriptMessage) (m : TranscriptMessage)
    (hr : m.role = Role.assistant) (hd : m.isDraft = true) :
    upsertAssistant now text (L ++ [m]) = L ++ [{ m with text := text }] := by
  simp [upsertAssistant, List.getLast?_concat, List.dropLast_concat, hr, hd]

/-- Upsert against a log not ending in an assistant draft appends a fresh
assistant draft entry. -/
lemma upsertAssistant_append (now : Nat) (text : String)
    (L : List TranscriptMessage) (h : lastAssistantDraft L = false) :
    upsertAssistant now text L =
      L ++ [⟨toString now, Role.assistant, text, true, now⟩] := by
  cases hL : L.getLast? with
  | none => simp [upsertAssistant, hL]
  | some m =>
      have hc : ¬(m.role = Role.assistant ∧ m.isDraft = true) := by
        intro hc
        unfold lastAssistantDraft at h
        rw [hL] at h
        simp [hc.1, hc.2] at h
      simp [upsertAssistant, hL, hc]

lemma lastAssistantDraft_concat (L : List TranscriptMessage) (m : TranscriptMessage) :
    lastAssistantDraft (L ++ [m]) = (decide (m.role = Role.assistant) && m.isDraft) := by
  simp [lastAssistantDraft, List.getLast?_concat]

/-- Finalization of a log ending in an assistant entry clears its draft
flag and keeps everything else. -/
lemma finalizeAssistantLast_concat (L : List TranscriptMessage)
    (m : TranscriptMessage) (h : m.role = Role.assistant) :
    finalizeAssistantLast (L ++ [m]) = L ++ [{ m with isDraft := false }] := by
  simp [finalizeAssistantLast, List.getLast?_concat, List.dropLast_concat, h]

/-- Finalization of a log ending in a user entry is a no-op. -/
lemma finalizeAssistantLast_user (L : List TranscriptMessage)
    (m : TranscriptMessage) (h : m.role = Role.user) :
    finalizeAssistantLast (L ++ [m]) = L ++ [m] := by
  simp [finalizeAssistantLast, List.getLast?_concat, h]

/-- A turn-complete with both accumulators effectively empty changes
nothing. -/
lemma onmessage_tc_quiet (now : Nat) (ct : ℚ) (s : SessionState)
    (h1 : jsTrim s.currentInputTrans = "") (h2 : s.currentOutputTrans = "") :
    onmessage now ct tcMsg s = s := by
  simp [onmessage, tcMsg, handleAudio, handleInputTrans, handleOutputTrans,
    handleTurnComplete, flushUser, h1, h2]

/-- A turn-complete with a whitespace-only user accumulator and non-empty
assistant accumulator finalizes the trailing assistant entry and clears
the assistant accumulator. -/
lemma onmessage_tc_finalize (now : Nat) (ct : ℚ) (s : SessionState)
    (h1 : jsTrim s.currentInputTrans = "") (h2 : s.currentOutputTrans ≠ "") :
    onmessage now ct tcMsg s =
      { s with
          transcript := finalizeAssistantLast s.transcript
          currentOutputTrans := "" } := by
  simp [onmessage, tcMsg, handleAudio, handleInputTrans, handleOutputTrans,
    handleTurnComplete, flushUser, h1, h2]

/-- A turn-complete with non-whitespace pending user text flushes it as a
finalized user message; the subsequent finalization check sees the user
entry at the tail and leaves the log otherwise unchanged, and the
assistant accumulator ends empty in either branch. -/
lemma onmessage_tc_flush (now : Nat) (ct : ℚ) (s : SessionState)
    (h1 : jsTrim s.currentInputTrans ≠ "") :
    onmessage now ct tcMsg s =
      { s with
          transcript := s.transcript ++
            [⟨toString now, Role.user, s.currentInputTrans, false, now⟩]
          currentInputTrans := ""
          currentOutputTrans := "" } := by
  obtain ⟨cs, vol, err, tr, ic, oc, onode, st, se, cit, cot, nst, asrc, sc⟩ := s
  by_cases h2 : cot = ""
  · subst h2
    simp [onmessage, tcMsg, handleAudio, handleInputTrans, handleOutputTrans,
      handleTurnComplete, flushUser, h1] at *
  · have e : finalizeAssistantLast (tr ++ [⟨toString now, Role.user, cit, false, now⟩]) =
        tr ++ [⟨toString now, Role.user, cit, false, now⟩] :=
      finalizeAssistantLast_user tr _ rfl
    simp [onmessage, tcMsg, handleAudio, handleInputTrans, handleOutputTrans,
      handleTurnComplete, flushUser, h1, h2, e]

/-- Folding a batch of input-transcription deltas only concatenates them
onto the pending user accumulator. -/
lemma processIn_append (ins : List String) :
    ∀ (s : SessionState) (now : Nat) (ct : ℚ),
      processMessages now ct (ins.map inMsg) s =
        { s with currentInputTrans := s.currentInputTrans ++ concatAll ins } := by
  induction ins with
  | nil =>
      intro s now ct
      rw [List.map_nil, processMessages_nil]
      simp [concatAll]
  | cons t rest ih =>
      intro s now ct
      rw [List.map_cons, processMessages_cons, onmessage_inMsg, ih]
      simp [concatAll, String.append_assoc]

/-- Folding a batch of output-transcription deltas over a state whose log
ends in an assistant draft merges all deltas into that single entry,
keeping its id and timestamp, and concatenates them onto the assistant
accumulator; nothing else changes. -/
lemma processOut_merge (ds : List String) :
    ∀ (s : SessionState) (now : Nat) (ct : ℚ) (L : List TranscriptMessage)
      (id0 : String) (ts0 : Nat),
      jsTrim s.currentInputTrans = "" →
      s.transcript = L ++ [⟨id0, Role.assistant, s.currentOutputTrans, true, ts0⟩] →
      processMessages now ct (ds.map outMsg) s =
        { s with
            currentOutputTrans := s.currentOutputTrans ++ concatAll ds
            transcript := L ++
              [⟨id0, Role.assistant, s.currentOutputTrans ++ concatAll ds, true, ts0⟩] } := by
  induction ds with
  | nil =>
      intro s now ct L id0 ts0 h1 h3
      rw [List.map_nil, processMessages_nil]
      simp only [concatAll, String.append_empty, ← h3]
  | cons d rest ih =>
      intro s now ct L id0 ts0 h1 h3
      obtain ⟨cs, vol, err, tr, ic, oc, onode, st, se, cit, cot, nst, asrc, sc⟩ := s
      simp only at h1 h3 ⊢
      subst h3
      rw [List.map_cons, processMessages_cons, onmessage_outMsg _ _ _ _ h1]
      simp only [upsertAssistant_last_draft now (cot ++ d) L
        ⟨id0, Role.assistant, cot, true, ts0⟩ rfl rfl]
      have step := ih
        ⟨cs, vol, err,
          L ++ [⟨id0, Role.assistant, cot ++ d, true, ts0⟩],
          ic, oc, onode, st, se, cit, cot ++ d, nst, asrc, sc⟩
        now ct L id0 ts0 h1 rfl
      simp only at step
      rw [step]
      simp [concatAll, String.append_assoc]

/-- C6: for a sequence of output-transcription deltas delivered within one
turn (fresh accumulators, no dangling assistant draft at the tail, no
interruption or turn-complete in between), every non-empty prefix of the
deltas leaves the log extended by exactly one assistant draft entry whose
text is the concatenation of the deltas received so far — not one entry
per delta — and when the prior log held no draft, that single tail entry
is the only draft in the log. -/
theorem c6_partial_collapsing (s : SessionState) (now : Nat)
    (ds : List String) (k : Nat)
    (h1 : jsTrim s.currentInputTrans = "")
    (h2 : s.currentOutputTrans = "")
    (h3 : lastAssistantDraft s.transcript = false)
    (hk1 : 1 ≤ k) (hk2 : k ≤ ds.length) :
    (processMessages now 0 ((ds.take k).map outMsg) s).transcript =
      s.transcript ++
        [⟨toString now, Role.assistant, concatAll (ds.take k), true, now⟩] ∧
    (processMessages now 0 ((ds.take k).map outMsg) s).currentOutputTrans =
      concatAll (ds.take k) ∧
    ((∀ m ∈ s.transcript, m.isDraft = false) →
      ((processMessages now 0 ((ds.take k).map outMsg) s).transcript.filter
          (fun m => m.isDraft)).length = 1) := by
  obtain ⟨d, rest, hdr⟩ : ∃ d rest, ds.take k = d :: rest := by
    cases h : ds.take k with
    | nil =>
        exfalso
        have hlen : (ds.take k).length = min k ds.length := List.length_take k ds
        rw [h] at hlen
        simp at hlen
        omega
    | cons d rest => exact ⟨d, rest, rfl⟩
  have key : processMessages now 0 ((ds.take k).map outMsg) s =
      { s with
          currentOutputTrans := concatAll (ds.take k)
          transcript := s.transcript ++
            [⟨toString now, Role.assistant, concatAll (ds.take k), true, now⟩] } := by
    obtain ⟨cs, vol, err, tr, ic, oc, onode, st, se, cit, cot, nst, asrc, sc⟩ := s
    simp only at h1 h2 h3 ⊢
    subst h2
    rw [hdr, List.map_cons, processMessages_cons, onmessage_outMsg _ _ _ _ h1]
    simp only [String.empty_append]
    rw [upsertAssistant_append now d tr h3]
    have step := processOut_merge rest
      ⟨cs, vol, err, tr ++ [⟨toString now, Role.assistant, d, true, now⟩],
        ic, oc, onode, st, se, cit, d, nst, asrc, sc⟩ now 0 tr (toString now) now h1 rfl
    simp only at step
    rw [step]
    simp [concatAll]
  refine ⟨by rw [key], by rw [key], ?_⟩
  intro hall
  rw [key]
  have hnil : s.transcript.filter (fun m => m.isDraft) = [] := by
    rw [List.filter_eq_nil_iff]
    intro a ha
    rw [hall a ha]
    simp
  simp [List.filter_append, hnil]

/-- Witness for C6: the deltas "Hel", "lo" from a fresh session produce
one assistant draft entry reading "Hello", which is the only draft. -/
theorem c6_witness :
    (processMessages 7 0 ((["Hel", "lo"].take 2).map outMsg) initState).transcript =
      [⟨"7", Role.assistant, "Hello", true, 7⟩] ∧
    (processMessages 7 0 ((["Hel", "lo"].take 2).map outMsg) initState).currentOutputTrans =
      "Hello" := by
  have h := c6_partial_collapsing initState 7 ["Hel", "lo"] 2
    (by decide) rfl rfl (by norm_num) (by norm_num)
  exact ⟨h.1.trans (by decide), h.2.1.trans (by decide)⟩

/-- C1 as stated is violated by an interleaving in which an
input-transcription delta arrives after the first output-transcription
delta of the turn: from a fresh session, an output delta "yo", then an
input delta "hi", then turn-complete leave the log with the assistant
entry (still a draft) strictly BEFORE the user entry. -/
theorem c1_counterexample :
    (processMessages 0 0 [outMsg "yo", inMsg "hi", tcMsg] initState).transcript =
      [⟨"0", Role.assistant, "yo", true, 0⟩, ⟨"0", Role.user, "hi", false, 0⟩] ∧
    List.map (fun m => m.role)
        (processMessages 0 0 [outMsg "yo", inMsg "hi", tcMsg] initState).transcript =
      [Role.assistant, Role.user] := by
  constructor <;> decide

/-- C1 (amended): for interleavings in which every input-transcription
delta of the turn arrives before the first output-transcription delta,
followed by turn-complete, the finalized log contains the user message of
the turn strictly before the assistant message of the same turn — the
non-empty pending user accumulator is flushed as a finalized user message
on the first output delta, before the assistant partial is upserted. -/
theorem c1_turn_order_amended (s : SessionState) (now : Nat)
    (ins outs : List String)
    (h1 : s.currentInputTrans = "") (h2 : s.currentOutputTrans = "")
    (h3 : lastAssistantDraft s.transcript = false)
    (h4 : jsTrim (concatAll ins) ≠ "") (h5 : concatAll outs ≠ "")
    (h6 : outs ≠ []) :
    (processMessages now 0 (ins.map inMsg ++ outs.map outMsg ++ [tcMsg]) s).transcript =
      s.transcript ++
        [⟨toString now, Role.user, concatAll ins, false, now⟩,
         ⟨toString now, Role.assistant, concatAll outs, false, now⟩] := by
  obtain ⟨o, orest, ho⟩ : ∃ o orest, outs = o :: orest := by
    cases outs with
    | nil => exact absurd rfl h6
    | cons o orest => exact ⟨o, orest, rfl⟩
  subst ho
  obtain ⟨cs, vol, err, tr, ic, oc, onode, st, se, cit, cot, nst, asrc, sc⟩ := s
  simp only at h1 h2 h3 h4 h5 ⊢
  subst h1
  subst h2
  rw [processMessages_append, processMessages_append, processIn_append]
  simp only [String.empty_append]
  rw [List.map_cons, processMessages_cons now 0 (outMsg o) (List.map outMsg orest),
    onmessage_outMsg_flush _ _ _ _ h4]
  simp only [String.empty_append]
  have hlast : lastAssistantDraft
      (tr ++ [⟨toString now, Role.user, concatAll ins, false, now⟩]) = false := by
    rw [lastAssistantDraft_concat]
    simp
  rw [upsertAssistant_append now o _ hlast]
  have step := processOut_merge orest
    ⟨cs, vol, err,
      (tr ++ [⟨toString now, Role.user, concatAll ins, false, now⟩]) ++
        [⟨toString now, Role.assistant, o, true, now⟩],
      ic, oc, onode, st, se, "", o, nst, asrc, sc⟩ now 0
    (tr ++ [⟨toString now, Role.user, concatAll ins, false, now⟩])
    (toString now) now rfl rfl
  simp only at step
  rw [step]
  rw [processMessages_cons now 0 tcMsg [], processMessages_nil]
  have h5' : o ++ concatAll orest ≠ "" := by
    simpa [concatAll] using h5
  rw [onmessage_tc_finalize now 0
    ⟨cs, vol, err,
      (tr ++ [TranscriptMessage.mk (toString now) Role.user (concatAll ins) false now]) ++
        [TranscriptMessage.mk (toString now) Role.assistant (o ++ concatAll orest) true now],
      ic, oc, onode, st, se, "", o ++ concatAll orest, nst, asrc, sc⟩ rfl h5']
  simp only
  rw [finalizeAssistantLast_concat _ ⟨toString now, Role.assistant, o ++ concatAll orest, true, now⟩ rfl]
  simp [concatAll, List.append_assoc]

/-- Witness for the amended C1: input delta "hi" then output delta "yo"
then turn-complete from a fresh session yield the finalized user line
strictly before the finalized assistant line. -/
theorem c1_witness :
    (processMessages 4 0 (["hi"].map inMsg ++ ["yo"].map outMsg ++ [tcMsg]) initState).transcript =
      [⟨"4", Role.user, "hi", false, 4⟩, ⟨"4", Role.assistant, "yo", false, 4⟩] := by
  have h := c1_turn_order_amended initState 4 ["hi"] ["yo"] rfl rfl rfl
    (by decide) (by decide) (by simp)
  exact h.trans (by decide)

/-- C7 as stated is violated when a stale assistant draft sits at the tail
of the log while the assistant accumulator is empty (the state an
interruption produces): from a fresh session, output delta "yo", then
interrupted, then turn-complete leave the trailing assistant entry STILL a
draft — turn-complete does not finalize it. -/
theorem c7_counterexample :
    (processMessages 0 0 [outMsg "yo", interruptedMsg, tcMsg] initState).transcript =
      [⟨"0", Role.assistant, "yo", true, 0⟩] ∧
    ∃ m, (processMessages 0 0 [outMsg "yo", interruptedMsg, tcMsg]
            initState).transcript.getLast? = some m ∧ m.isDraft = true := by
  refine ⟨by decide, ⟨⟨"0", Role.assistant, "yo", true, 0⟩, by decide, rfl⟩⟩

/-- C7 (amended): processing turn-complete flushes a pending user
accumulator with non-whitespace content into the log as a finalized user
message and clears it; the assistant accumulator is always empty
afterwards; and when the user accumulator is whitespace-only, the
assistant accumulator non-empty and the log's last entry an assistant
message, that entry is marked finalized (text, id and timestamp kept).  In
particular the deltas "Hel", "lo" followed by turn-complete leave the log
ending with exactly one finalized assistant message reading "Hello". -/
theorem c7_turn_complete_amended (s : SessionState) (now : Nat)
    (L : List TranscriptMessage) (m : TranscriptMessage)
    (h1 : jsTrim s.currentInputTrans = "") (h2 : s.currentOutputTrans ≠ "")
    (h3 : s.transcript = L ++ [m]) (h4 : m.role = Role.assistant) :
    (onmessage now 0 tcMsg s).transcript = L ++ [{ m with isDraft := false }] ∧
    (onmessage now 0 tcMsg s).currentOutputTrans = "" ∧
    (onmessage now 0 tcMsg s).currentInputTrans = s.currentInputTrans ∧
    (∀ s' : SessionState, jsTrim s'.currentInputTrans ≠ "" →
        (onmessage now 0 tcMsg s').transcript = s'.transcript ++
          [⟨toString now, Role.user, s'.currentInputTrans, false, now⟩] ∧
        (onmessage now 0 tcMsg s').currentInputTrans = "" ∧
        (onmessage now 0 tcMsg s').currentOutputTrans = "") ∧
    (processMessages 5 0 [outMsg "Hel", outMsg "lo", tcMsg] initState).transcript =
      [⟨"5", Role.assistant, "Hello", false, 5⟩] := by
  have e := onmessage_tc_finalize now 0 s h1 h2
  refine ⟨?_, ?_, ?_, ?_, by decide⟩
  · rw [e]
    show finalizeAssistantLast s.transcript = L ++ [{ m with isDraft := false }]
    rw [h3]
    exact finalizeAssistantLast_concat L m h4
  · rw [e]
  · rw [e]
  · intro s' h'
    have e' := onmessage_tc_flush now 0 s' h'
    exact ⟨by rw [e'], by rw [e'], by rw [e']⟩

/-- Witness for the amended C7: a state holding the assistant draft "yo"
at the tail with accumulator "yo" is finalized in place by turn-complete,
and the accumulator is cleared. -/
theorem c7_witness :
    (onmessage 2 0 tcMsg
        { initState with
            currentOutputTrans := "yo"
            transcript := [⟨"1", Role.assistant, "yo", true, 1⟩] }).transcript =
      [⟨"1", Role.assistant, "yo", false, 1⟩] ∧
    (onmessage 2 0 tcMsg
        { initState with
            currentOutputTrans := "yo"
            transcript := [⟨"1", Role.assistant, "yo", true, 1⟩] }).currentOutputTrans = "" := by
  have h := c7_turn_complete_amended
    { initState with
        currentOutputTrans := "yo"
        transcript := [⟨"1", Role.assistant, "yo", true, 1⟩] } 2 []
    ⟨"1", Role.assistant, "yo", true, 1⟩ rfl (by decide) rfl rfl
  exact ⟨h.1.trans (by decide), h.2.1⟩
